import Mathlib

/-!
Verification of the `textengine` dialog-tree engine (`src/engine.hpp`).

The C++ header is shallowly embedded below:
* `configure` mirrors `struct configure`;
* `console.log` mirrors the severity dispatch of `console::log` (a severity-1
  call throws `textengine::exception`, modelled by `LogOutcome.raised`);
* `Decision`, `Dialog`, `Tree` mirror the entity classes; their `std::map`
  members are modelled as association lists with `std::map::insert`'s
  insert-if-absent semantics (`assocFind` is `std::map::find` on the key);
  a thrown exception is modelled by the `Option String` / `Except String`
  component of the result;
* `parseMarkerValue` / `parseLine` mirror `Parser::parseMarkerValue` and
  `Parser::parseLine`.  The scanned line is a `List Char` and the
  `std::string::const_iterator` is a `Nat` cursor.  Dereferencing the iterator
  at or beyond `line.end()` is undefined behaviour in the source; the embedding
  makes every such read an explicit `oobRead` outcome carrying the offending
  index.  The C++ `while` loops become recursion: `markerLoop` / `trimLoop`
  recurse on the unread suffix of the line, and `parseLineAux` recurses on a
  fuel argument that bounds the number of loop iterations (`parseLine` supplies
  `line.length + 2`, which exceeds the number of loop entries possible for any
  execution, since the cursor strictly increases and every entry at an index
  beyond the line terminates the scan).
-/

namespace textengine

/-- Engine configuration, mirroring `struct configure` in `engine.hpp`
(defaults as in the source: indent two spaces, log level 1, trim on,
disabled decisions displayed). -/
structure configure where
  output_indent : String := "  "
  log_level : Int := 1
  trim_whitespaces_behind_markers : Bool := true
  display_disabled_decisions : Bool := true
  deriving Repr, DecidableEq

/-- Observable outcome of one `console::log(level, arg)` call:
`raised` models `throw exception(arg)`, `emitted` models printing via
`console::out`, `silent` models returning with no output. -/
inductive LogOutcome where
  | raised : String → LogOutcome
  | emitted : String → LogOutcome
  | silent : LogOutcome
  deriving Repr, DecidableEq

/-- Whether the log call threw (severity-1 path). -/
def LogOutcome.isRaised : LogOutcome → Bool
  | LogOutcome.raised _ => true
  | _ => false

/-- `console::log` from `engine.hpp`: `level == 1` throws the message;
`level < 1 || level > level_` returns silently; otherwise the message is
printed.  `levelConfig` is the static `console::level_`. -/
def console.log (levelConfig : Int) (level : Int) (msg : String) : LogOutcome :=
  if level = 1 then LogOutcome.raised msg
  else if level < 1 ∨ level > levelConfig then LogOutcome.silent
  else LogOutcome.emitted msg

/-- `class Decision`: id, message, link, enabled flag and score
(constructor defaults `link = ""`, `enabled = true`, `score = 0`). -/
structure Decision where
  id : String
  message : String
  link : String := ""
  enabled : Bool := true
  score : Int := 0
  deriving Repr, DecidableEq

/-- The `Decision(id, message, link, enabled, score)` constructor. -/
def Decision.construct (i m l : String) (e : Bool) (s : Int) : Decision :=
  { id := i, message := m, link := l, enabled := e, score := s }

/-- `class Dialog`: a keyed collection of decisions plus id, message, link.
The `std::map<std::string, Decision>` is an association list. -/
structure Dialog where
  decisions : List (String × Decision) := []
  id : String
  message : String
  link : String := ""
  deriving Repr, DecidableEq

/-- The `Dialog(id, message, link)` constructor: the decisions map starts
empty. -/
def Dialog.construct (i m l : String) : Dialog :=
  { decisions := [], id := i, message := m, link := l }

/-- Key lookup in an association list: `std::map::find` restricted to the
key semantics the engine uses (keys are unique, order carries no meaning). -/
def assocFind {α : Type} (k : String) : List (String × α) → Option α
  | [] => none
  | p :: l => if p.1 = k then some p.2 else assocFind k l

/-- `Dialog::insertDecision`: `decisions_.insert({id, decision})` adds the
entry only if the key is absent; on a duplicate key the map is left unchanged
and `console::log(1, "duplicate decision id: " + id)` throws — the thrown
message is the `some` component. -/
def Dialog.insertDecision (d : Dialog) (dec : Decision) : Dialog × Option String :=
  match assocFind dec.id d.decisions with
  | some _ => (d, some ("duplicate decision id: " ++ dec.id))
  | none => ({ d with decisions := d.decisions ++ [(dec.id, dec)] }, none)

/-- `Dialog::decision(id)`: `find` the key; if absent,
`console::log(1, "cannot find decision with id: " + id)` throws (the map is
only read, never written); otherwise the stored entity is returned. -/
def Dialog.decision (d : Dialog) (i : String) : Except String Decision :=
  match assocFind i d.decisions with
  | some dec => Except.ok dec
  | none => Except.error ("cannot find decision with id: " ++ i)

/-- `class Tree`: a keyed collection of dialogs plus root id, own id and
score.  `id_` is never initialised by the constructor, hence `""`. -/
structure Tree where
  dialogs : List (String × Dialog) := []
  root : String
  id : String := ""
  score : Int := 0
  deriving Repr, DecidableEq

/-- The `Tree(root, initial_score)` constructor. -/
def Tree.construct (r : String) (initialScore : Int) : Tree :=
  { dialogs := [], root := r, id := "", score := initialScore }

/-- `Tree::insertDialog`: insert-if-absent; on a duplicate key the map is
unchanged and `console::log(1, "duplicate dialog id: " + id)` throws. -/
def Tree.insertDialog (t : Tree) (d : Dialog) : Tree × Option String :=
  match assocFind d.id t.dialogs with
  | some _ => (t, some ("duplicate dialog id: " ++ d.id))
  | none => ({ t with dialogs := t.dialogs ++ [(d.id, d)] }, none)

/-- `Tree::dialog(id)`: `find` the key; if absent,
`console::log(1, "cannot find dialog with id: " + id)` throws (the map is
only read, never written); otherwise the stored entity is returned. -/
def Tree.dialog (t : Tree) (i : String) : Except String Dialog :=
  match assocFind i t.dialogs with
  | some d => Except.ok d
  | none => Except.error ("cannot find dialog with id: " ++ i)

/-- `Parser::Token`: accumulated literal text, optional id, optional link
with its kind tag, and the two once-only flags. -/
structure Token where
  text : String := ""
  id : String := ""
  link : String := ""
  isTreeLink : Bool := false
  hasId : Bool := false
  hasLink : Bool := false
  deriving Repr, DecidableEq

/-- Result of `Parser::parseMarkerValue`: the marker string together with the
final cursor, or an out-of-bounds read (undefined behaviour in the source) at
the given index. -/
inductive MarkerResult where
  | ok : String → Nat → MarkerResult
  | oobRead : Nat → MarkerResult
  deriving Repr, DecidableEq

/-- The content loop of `parseMarkerValue`:
`while (++it != line.end() && *it != ']') marker.push_back(*it);`.
The first argument is the unread suffix of the line starting at absolute
position `j`; the result is the accumulated content and the cursor at the
closing `]` (or at `line.length` when the line ends first). -/
def markerLoop : List Char → Nat → String → String × Nat
  | [], j, acc => (acc, j)
  | c :: rest, j, acc =>
    if c = ']' then (acc, j) else markerLoop rest (j + 1) (acc.push c)

/-- The whitespace-trim loop of `parseMarkerValue`:
`while (++it != line.end() && *it == ' ');`.
The first argument is the unread suffix starting at absolute position `j`;
the result is the cursor at the first non-space character (or at
`line.length`). -/
def trimLoop : List Char → Nat → Nat
  | [], j => j
  | c :: rest, j => if c = ' ' then trimLoop rest (j + 1) else j

/-- `Parser::parseMarkerValue(config, line, it)` with `it` the position of
the opening `[`.  The content loop pre-increments the cursor, so a call with
`it ≥ line.length` immediately dereferences `it + 1`, past the end.  When the
trim option is on and the content loop stopped at `line.length` (unterminated
marker), the trim loop's `++it` also dereferences past the end. -/
def parseMarkerValue (config : configure) (line : List Char) (it : Nat) : MarkerResult :=
  if it < line.length then
    match markerLoop (line.drop (it + 1)) (it + 1) "" with
    | (marker, e) =>
      if config.trim_whitespaces_behind_markers then
        if e < line.length then
          MarkerResult.ok marker (trimLoop (line.drop (e + 1)) (e + 1))
        else MarkerResult.oobRead (e + 1)
      else MarkerResult.ok marker e
  else MarkerResult.oobRead (it + 1)

/-- Result of `Parser::parseLine`: normal termination with the token and the
final cursor, a thrown `textengine::exception` (from a severity-1 log) with
the message and the token as mutated at throw time, an out-of-bounds iterator
dereference (undefined behaviour in the source) with the token and the
offending index, or fuel exhaustion (an artefact of the embedding that no
`parseLine` call can produce, since the fuel exceeds the possible number of
loop iterations). -/
inductive LineResult where
  | ok : Token → Nat → LineResult
  | thrown : String → Token → LineResult
  | oobRead : Token → Nat → LineResult
  | outOfFuel : LineResult
  deriving Repr, DecidableEq

/-- The `while (it != line.end())` loop of `Parser::parseLine`, one fuel unit
per loop entry.  Every branch follows the source: `$[` starts an id marker
(a second id in the same token sets `hasId` back to `false` and then throws);
`$T[`/`$t[`/`$D[`/`$d[` starts a link marker (`isTreeLink` is assigned only
on the non-throwing path); any other character after `$` is restored to the
text verbatim; a plain character is appended to the text.  Every `*it` with
the cursor at or beyond `line.end()` is an `oobRead`. -/
def parseLineAux (config : configure) (line : List Char) :
    Nat → Token → Nat → LineResult
  | 0, _, _ => LineResult.outOfFuel
  | fuel + 1, curr, it =>
    if it = line.length then LineResult.ok curr it
    else
      match line.get? it with
      | none => LineResult.oobRead curr it
      | some c =>
        if c = '$' then
          match line.get? (it + 1) with
          | none => LineResult.oobRead curr (it + 1)
          | some c1 =>
            if c1 = '[' then
              match parseMarkerValue config line (it + 1) with
              | MarkerResult.ok idv it2 =>
                if curr.hasId = false then
                  parseLineAux config line fuel
                    { curr with hasId := true, id := idv } (it2 + 1)
                else
                  LineResult.thrown ("found another id within token: " ++ idv)
                    { curr with hasId := false }
              | MarkerResult.oobRead j => LineResult.oobRead curr j
            else if c1 = 'T' ∨ c1 = 't' ∨ c1 = 'D' ∨ c1 = 'd' then
              match line.get? (it + 2) with
              | none => LineResult.oobRead curr (it + 2)
              | some c2 =>
                if c2 = '[' then
                  match parseMarkerValue config line (it + 2) with
                  | MarkerResult.ok lk it3 =>
                    if curr.hasLink = false then
                      let isTree := decide (c1 = 'T' ∨ c1 = 't')
                      parseLineAux config line fuel
                        { curr with hasLink := true, link := lk, isTreeLink := isTree }
                        (it3 + 1)
                    else
                      LineResult.thrown ("found another link within token: " ++ lk)
                        { curr with hasLink := false }
                  | MarkerResult.oobRead j => LineResult.oobRead curr j
                else
                  parseLineAux config line fuel
                    { curr with text := ((curr.text.push '$').push c1).push c2 }
                    (it + 3)
            else
              parseLineAux config line fuel
                { curr with text := (curr.text.push '$').push c1 } (it + 2)
        else
          parseLineAux config line fuel
            { curr with text := curr.text.push c } (it + 1)

/-- `Parser::parseLine(config, curr, line, it)`. -/
def parseLine (config : configure) (curr : Token) (line : List Char) (it : Nat) :
    LineResult :=
  parseLineAux config line (line.length + 2) curr it

/-- The default configuration (`trim_whitespaces_behind_markers = true`). -/
def cfg : configure := {}

/-- The default configuration with the whitespace trim disabled. -/
def cfgNoTrim : configure := { trim_whitespaces_behind_markers := false }

/-- A fresh token, as default-initialised in the source. -/
def tok0 : Token := {}

/-- The decisions map of a `Dialog` is keyed by each decision's own id and
its keys are unique. -/
def Dialog.wellKeyed (d : Dialog) : Prop :=
  (∀ q ∈ d.decisions, q.2.id = q.1) ∧ (d.decisions.map Prod.fst).Nodup

/-- The dialogs map of a `Tree` is keyed by each dialog's own id with unique
keys, and every stored dialog's decisions map is likewise well keyed. -/
def Tree.wellKeyed (t : Tree) : Prop :=
  (∀ p ∈ t.dialogs, p.2.id = p.1 ∧ p.2.wellKeyed) ∧ (t.dialogs.map Prod.fst).Nodup

/-- `tree.dialog(di).insertDecision(dec)`: look the dialog up and insert the
decision through the returned mutable reference.  When the lookup throws
(id absent) no insertion happens and the tree is untouched; when the
insertion throws (duplicate decision id) the dialog's map is untouched. -/
def Tree.insertDecisionAt (t : Tree) (di : String) (dec : Decision) : Tree :=
  match assocFind di t.dialogs with
  | none => t
  | some _ =>
    let f := fun (p : String × Dialog) =>
      if p.1 = di then (p.1, (p.2.insertDecision dec).1) else p
    { t with dialogs := t.dialogs.map f }

/-- One mutation of a `Tree` as the engine can perform it: `insDialog i m l`
is `tree.insertDialog(i, m, l)` (the overload that constructs
`Dialog(i, m, l)` with an empty decisions map — the only way the source can
create a `Dialog`), and `insDecision di i m l e s` is
`tree.dialog(di).insertDecision(i, m, l, e, s)`. -/
inductive TreeOp where
  | insDialog : String → String → String → TreeOp
  | insDecision : String → String → String → String → Bool → Int → TreeOp

/-- Apply one `TreeOp` to a tree, keeping the post-state of the tree whether
or not the operation threw. -/
def Tree.applyOp (t : Tree) (op : TreeOp) : Tree :=
  match op with
  | TreeOp.insDialog i m l => (t.insertDialog (Dialog.construct i m l)).1
  | TreeOp.insDecision di i m l e s => t.insertDecisionAt di (Decision.construct i m l e s)

/-- A dialog with id `"D1"`, the first one inserted in the witness scenario. -/
def dD1 : Dialog := Dialog.construct "D1" "first message" ""

/-- A second, different dialog that also carries id `"D1"`. -/
def dD1b : Dialog := Dialog.construct "D1" "second message" ""

/-- A tree holding `dD1` (insertion of the first `"D1"` dialog succeeded). -/
def tEx : Tree := ((Tree.construct "root" 0).insertDialog dD1).1

/-- A decision with id `"a"`, the first one inserted in the witness scenario. -/
def decA : Decision := Decision.construct "a" "first choice" "" true 0

/-- A second, different decision that also carries id `"a"`. -/
def decA2 : Decision := Decision.construct "a" "second choice" "" false 3

/-- A dialog holding `decA` (insertion of the first `"a"` decision succeeded). -/
def gEx : Dialog := (dD1.insertDecision decA).1

/-- Claim C1 (code_bug evidence): with the whitespace trim enabled (the
default), scanning `"$[foo]bar"` yields text `"ar"` and scanning
`"$[a]   text"` yields text `"ext"` — the scanner's unconditional `it++`
after `parseMarkerValue` skips the first character behind the trimmed
whitespace, instead of the spec's `"bar"` / `"text"`.  With the trim
disabled the text is `"bar"` / `"   text"` as the claim states. -/
theorem C1_trim_divergence :
    parseLine cfg tok0 "$[foo]bar".data 0 =
      LineResult.ok { text := "ar", id := "foo", hasId := true } 9 ∧
    parseLine cfgNoTrim tok0 "$[foo]bar".data 0 =
      LineResult.ok { text := "bar", id := "foo", hasId := true } 9 ∧
    parseLine cfg tok0 "$[a]   text".data 0 =
      LineResult.ok { text := "ext", id := "a", hasId := true } 11 ∧
    parseLine cfgNoTrim tok0 "$[a]   text".data 0 =
      LineResult.ok { text := "   text", id := "a", hasId := true } 11 :=
  ⟨rfl, rfl, rfl, rfl⟩

/-- Claim C3 (code_bug evidence): scanning `"$[abc"` (length 5, no closing
bracket) consumes the rest of the line as marker content and raises no
error, but the scan does not terminate normally at end of line: with the
trim enabled the trim loop's `++it` dereferences index 6, and with the trim
disabled the outer loop's `it++` runs the cursor to 6 and dereferences it —
both out of bounds (the trim-disabled run shows the content `"abc"` was
stored as the id before the overrun). -/
theorem C3_unterminated_marker_overrun :
    parseLine cfg tok0 "$[abc".data 0 = LineResult.oobRead tok0 6 ∧
    parseLine cfgNoTrim tok0 "$[abc".data 0 =
      LineResult.oobRead { id := "abc", hasId := true } 6 ∧
    "$[abc".data.length = 5 :=
  ⟨rfl, rfl, rfl⟩

/-- Claim C4 (code_bug evidence): with the default (trim-enabled)
configuration, scanning `"$T[x] go"` yields link `"x"` of tree kind but text
`"o"` (the `'g'` is skipped by the post-trim `it++`), not the spec's `"go"`;
and scanning `"$d[y]"` yields link `"y"` of dialog kind but then runs the
cursor past the end of the line (out-of-bounds read at index 6 of a 5-char
line) instead of terminating.  With the trim disabled `"$d[y]"` behaves as
the claim states. -/
theorem C4_link_marker_divergence :
    parseLine cfg tok0 "$T[x] go".data 0 =
      LineResult.ok { text := "o", link := "x", isTreeLink := true, hasLink := true } 8 ∧
    parseLine cfg tok0 "$d[y]".data 0 =
      LineResult.oobRead { link := "y", hasLink := true } 6 ∧
    parseLine cfgNoTrim tok0 "$d[y]".data 0 =
      LineResult.ok { link := "y", hasLink := true } 5 :=
  ⟨rfl, rfl, rfl⟩

/-- Claim C5 (code_bug evidence): with the default (trim-enabled)
configuration, scanning `"$[a]$[b]"` reports no grammar violation at all —
the post-trim `it++` skips the second marker's `$`, so the scan ends with
id `"a"` and text `"[b]"`.  With the trim disabled the second id marker is
detected and reported through a severity-1 log (a throw): the first id
`"a"` is retained, the second is not stored, and, as the `"x$[a]y$[b]"` run
shows, the literal text accumulated so far is preserved in the token. -/
theorem C5_duplicate_marker_divergence :
    parseLine cfg tok0 "$[a]$[b]".data 0 =
      LineResult.ok { text := "[b]", id := "a", hasId := true } 8 ∧
    parseLine cfgNoTrim tok0 "$[a]$[b]".data 0 =
      LineResult.thrown "found another id within token: b" { id := "a", hasId := false } ∧
    parseLine cfgNoTrim tok0 "x$[a]y$[b]".data 0 =
      LineResult.thrown "found another id within token: b"
        { text := "xy", id := "a", hasId := false } :=
  ⟨rfl, rfl, rfl⟩

/-- Claim C10 (code_bug evidence): the scan does read past the end of the
line.  A line ending in `$` dereferences the end position (index 1 of a
1-char line); a line ending in `$T` dereferences index 2 of a 2-char line;
and after a marker whose trim run reaches end of line (`"$[a]"`, length 4)
the cursor is advanced to 5 and dereferenced — strictly past end of line. -/
theorem C10_cursor_overrun :
    parseLine cfg tok0 "$".data 0 = LineResult.oobRead tok0 1 ∧
    parseLine cfg tok0 "$T".data 0 = LineResult.oobRead tok0 2 ∧
    parseLine cfg tok0 "$[a]".data 0 =
      LineResult.oobRead { id := "a", hasId := true } 5 ∧
    "$[a]".data.length = 4 :=
  ⟨rfl, rfl, rfl, rfl⟩

/-- Claim C6: for every configured level, a severity-1 log call raises a
fatal condition carrying the message and never returns normally; severity-2
and severity-3 calls never raise (execution continues), severity 2 emits
exactly when the configured level is at least 2, severity 3 emits exactly
when it is at least 3, and a severity-0 call emits nothing and does not
fail. -/
theorem C6_log_severities (lvl : Int) (msg : String) :
    console.log lvl 1 msg = LogOutcome.raised msg ∧
    (console.log lvl 2 msg).isRaised = false ∧
    (console.log lvl 3 msg).isRaised = false ∧
    console.log lvl 2 msg =
      (if 2 ≤ lvl then LogOutcome.emitted msg else LogOutcome.silent) ∧
    console.log lvl 3 msg =
      (if 3 ≤ lvl then LogOutcome.emitted msg else LogOutcome.silent) ∧
    console.log lvl 0 msg = LogOutcome.silent := by
  refine ⟨rfl, ?_, ?_, ?_, ?_, ?_⟩ <;>
    simp only [console.log, LogOutcome.isRaised] <;>
    split_ifs <;> first | rfl | omega

/-- A key on which `assocFind` fails is not among the keys of the list. -/
theorem assocFind_none_not_mem {α : Type} {k : String} {l : List (String × α)}
    (h : assocFind k l = none) : k ∉ l.map Prod.fst := by
  induction l with
  | nil => simp
  | cons p rest ih =>
    simp only [assocFind] at h
    by_cases hk : p.1 = k
    · rw [if_pos hk] at h
      exact absurd h (by simp)
    · rw [if_neg hk] at h
      simp only [List.map_cons, List.mem_cons]
      rintro (h1 | h2)
      · exact hk h1.symm
      · exact ih h h2

/-- If no key of the list equals `k`, `assocFind` fails. -/
theorem assocFind_eq_none {α : Type} {k : String} {l : List (String × α)}
    (h : ∀ p ∈ l, p.1 ≠ k) : assocFind k l = none := by
  induction l with
  | nil => rfl
  | cons p rest ih =>
    simp only [assocFind]
    rw [if_neg (h p (List.mem_cons_self p rest))]
    exact ih fun q hq => h q (List.mem_cons_of_mem p hq)

/-- `Dialog::insertDecision` never changes the dialog's own id. -/
theorem Dialog.insertDecision_id (d : Dialog) (dec : Decision) :
    ((d.insertDecision dec).1).id = d.id := by
  unfold Dialog.insertDecision
  cases assocFind dec.id d.decisions <;> rfl

/-- `Dialog::insertDecision` preserves the keyed-by-own-id invariant of the
decisions map. -/
theorem Dialog.insertDecision_wellKeyed {d : Dialog} {dec : Decision}
    (h : d.wellKeyed) : ((d.insertDecision dec).1).wellKeyed := by
  unfold Dialog.insertDecision
  rcases hf : assocFind dec.id d.decisions with _ | v
  · simp only
    constructor
    · intro q hq
      rcases List.mem_append.mp hq with hq1 | hq2
      · exact h.1 q hq1
      · have : q = (dec.id, dec) := by simpa using hq2
        subst this
        rfl
    · rw [List.map_append]
      refine List.Nodup.append h.2 (List.nodup_singleton _) ?_
      intro a ha hb
      have hab : a = dec.id := by simpa using hb
      subst hab
      exact assocFind_none_not_mem hf ha
  · simpa only using h

/-- `Tree::insertDialog` preserves the keyed-by-own-id invariant, provided
the inserted dialog's own decisions map is well keyed. -/
theorem Tree.insertDialog_wellKeyed {t : Tree} {d : Dialog}
    (ht : t.wellKeyed) (hd : d.wellKeyed) : ((t.insertDialog d).1).wellKeyed := by
  unfold Tree.insertDialog
  rcases hf : assocFind d.id t.dialogs with _ | v
  · simp only
    constructor
    · intro p hp
      rcases List.mem_append.mp hp with hp1 | hp2
      · exact ht.1 p hp1
      · have : p = (d.id, d) := by simpa using hp2
        subst this
        exact ⟨rfl, hd⟩
    · rw [List.map_append]
      refine List.Nodup.append ht.2 (List.nodup_singleton _) ?_
      intro a ha hb
      have hab : a = d.id := by simpa using hb
      subst hab
      exact assocFind_none_not_mem hf ha
  · simpa only using ht

/-- The in-place decision insertion preserves the tree invariant. -/
theorem Tree.insertDecisionAt_wellKeyed {t : Tree} {di : String} {dec : Decision}
    (ht : t.wellKeyed) : (t.insertDecisionAt di dec).wellKeyed := by
  unfold Tree.insertDecisionAt
  rcases hf : assocFind di t.dialogs with _ | v
  · exact ht
  · simp only
    constructor
    · intro p hp
      rcases List.mem_map.mp hp with ⟨q, hq, hfq⟩
      by_cases hqd : q.1 = di
      · rw [if_pos hqd] at hfq
        subst hfq
        refine ⟨?_, Dialog.insertDecision_wellKeyed (ht.1 q hq).2⟩
        simpa [Dialog.insertDecision_id] using (ht.1 q hq).1
      · rw [if_neg hqd] at hfq
        subst hfq
        exact ht.1 q hq
    · have hkeys :
          (t.dialogs.map fun p =>
              if p.1 = di then (p.1, (p.2.insertDecision dec).1) else p).map Prod.fst
            = t.dialogs.map Prod.fst := by
        induction t.dialogs with
        | nil => rfl
        | cons p rest ih =>
          simp only [List.map_cons, ih]
          by_cases hqd : p.1 = di
          · rw [if_pos hqd]
          · rw [if_neg hqd]
      rw [hkeys]
      exact ht.2

/-- Every engine operation preserves the tree invariant. -/
theorem Tree.applyOp_wellKeyed (t : Tree) (op : TreeOp) (h : t.wellKeyed) :
    (t.applyOp op).wellKeyed := by
  cases op with
  | insDialog i m l =>
    exact Tree.insertDialog_wellKeyed h ⟨by simp [Dialog.construct], by simp [Dialog.construct]⟩
  | insDecision di i m l e s => exact Tree.insertDecisionAt_wellKeyed h

/-- Folding any sequence of operations over an invariant-satisfying tree
keeps the invariant. -/
theorem Tree.foldl_applyOp_wellKeyed (ops : List TreeOp) (t : Tree)
    (h : t.wellKeyed) : (ops.foldl Tree.applyOp t).wellKeyed := by
  induction ops generalizing t with
  | nil => exact h
  | cons op rest ih => exact ih _ (Tree.applyOp_wellKeyed t op h)

/-- Claim C9: in every tree reachable by construction followed by any
sequence of `insertDialog` / `insertDecision` operations, every key of the
dialogs map maps to a dialog whose own id equals that key, every key of each
dialog's decisions map maps to a decision whose own id equals that key, and
the keys of both maps are unique. -/
theorem C9_keyed_by_own_id (root : String) (s : Int) (ops : List TreeOp) :
    (ops.foldl Tree.applyOp (Tree.construct root s)).wellKeyed :=
  Tree.foldl_applyOp_wellKeyed ops _
    ⟨by simp [Tree.construct], by simp [Tree.construct]⟩

/-- Claim C2: inserting a dialog whose id already exists in a tree (or a
decision whose id already exists in a dialog) raises the duplicate-id fatal
log with the entity left out, does not overwrite, leaves the collection
unchanged, and a subsequent lookup of that id still answers as before the
failed insertion. -/
theorem C2_duplicate_insertion (t : Tree) (d g0 : Dialog) (dec : Decision)
    (hd : (assocFind d.id t.dialogs).isSome = true)
    (hdec : (assocFind dec.id g0.decisions).isSome = true) :
    t.insertDialog d = (t, some ("duplicate dialog id: " ++ d.id)) ∧
    ((t.insertDialog d).1).dialog d.id = t.dialog d.id ∧
    g0.insertDecision dec = (g0, some ("duplicate decision id: " ++ dec.id)) ∧
    ((g0.insertDecision dec).1).decision dec.id = g0.decision dec.id := by
  rcases Option.isSome_iff_exists.mp hd with ⟨v, hv⟩
  rcases Option.isSome_iff_exists.mp hdec with ⟨w, hw⟩
  have h1 : t.insertDialog d = (t, some ("duplicate dialog id: " ++ d.id)) := by
    unfold Tree.insertDialog
    rw [hv]
  have h2 : g0.insertDecision dec = (g0, some ("duplicate decision id: " ++ dec.id)) := by
    unfold Dialog.insertDecision
    rw [hw]
  exact ⟨h1, by rw [h1], h2, by rw [h2]⟩

/-- Witness for C2: after inserting a dialog with id `"D1"` into a tree, a
second insertion under id `"D1"` fails with the duplicate-id message and
leaves the tree unchanged, so `tree.dialog("D1")` still returns the first
dialog; likewise for two decisions sharing id `"a"` within one dialog. -/
theorem C2_duplicate_insertion_witness :
    tEx.insertDialog dD1b = (tEx, some "duplicate dialog id: D1") ∧
    tEx.dialog "D1" = Except.ok dD1 ∧
    gEx.insertDecision decA2 = (gEx, some "duplicate decision id: a") ∧
    gEx.decision "a" = Except.ok decA :=
  ⟨(C2_duplicate_insertion tEx dD1b gEx decA2 (by decide) (by decide)).1,
   rfl,
   (C2_duplicate_insertion tEx dD1b gEx decA2 (by decide) (by decide)).2.2.1,
   rfl⟩

/-- Claim C7: looking an id up in a tree (or a dialog) fails with the
not-found fatal log when the id is absent and returns the stored entity when
it is present; the lookup only reads the map (the embedding of
`Tree::dialog` / `Dialog::decision` takes no new tree or dialog state — the
source merely calls `find` and never mutates the container). -/
theorem C7_lookup_behavior (t : Tree) (g0 : Dialog) (i : String) :
    ((∀ p ∈ t.dialogs, p.1 ≠ i) →
      t.dialog i = Except.error ("cannot find dialog with id: " ++ i)) ∧
    (∀ d, assocFind i t.dialogs = some d → t.dialog i = Except.ok d) ∧
    ((∀ q ∈ g0.decisions, q.1 ≠ i) →
      g0.decision i = Except.error ("cannot find decision with id: " ++ i)) ∧
    (∀ dec, assocFind i g0.decisions = some dec → g0.decision i = Except.ok dec) := by
  refine ⟨?_, ?_, ?_, ?_⟩
  · intro h
    unfold Tree.dialog
    rw [assocFind_eq_none h]
  · intro d hd
    unfold Tree.dialog
    rw [hd]
  · intro h
    unfold Dialog.decision
    rw [assocFind_eq_none h]
  · intro dec hdec
    unfold Dialog.decision
    rw [hdec]

/-- Witness for C7: in the concrete tree `tEx`, looking up the absent id
`"missing"` fails with the not-found message, and looking up `"D1"` returns
the stored dialog; same for the concrete dialog `gEx` and id `"a"`. -/
theorem C7_lookup_behavior_witness :
    tEx.dialog "missing" = Except.error "cannot find dialog with id: missing" ∧
    tEx.dialog "D1" = Except.ok dD1 ∧
    gEx.decision "missing" = Except.error "cannot find decision with id: missing" ∧
    gEx.decision "a" = Except.ok decA :=
  ⟨(C7_lookup_behavior tEx gEx "missing").1 (by decide),
   (C7_lookup_behavior tEx gEx "D1").2.1 dD1 (by decide),
   (C7_lookup_behavior tEx gEx "missing").2.2.1 (by decide),
   (C7_lookup_behavior tEx gEx "a").2.2.2 decA (by decide)⟩

/-- Claim C8: a `$` not immediately followed by `[`, nor by one of
`T`/`t`/`D`/`d` and then `[`, is literal — the `$` and the following
character(s) are appended verbatim to the token's text, no id and no link
are set (the token changes in its `text` field only), and scanning resumes
normally at the next unread character; concretely, scanning `"$q"` on a
fresh token yields text `"$q"` with empty id and link. -/
theorem C8_literal_passthrough :
    (∀ (config : configure) (line : List Char) (fuel it : Nat) (tok : Token) (c : Char),
      line.get? it = some '$' → line.get? (it + 1) = some c →
      ¬(c = '[' ∨ c = 'T' ∨ c = 't' ∨ c = 'D' ∨ c = 'd') →
      parseLineAux config line (fuel + 1) tok it =
        parseLineAux config line fuel
          { tok with text := (tok.text.push '$').push c } (it + 2)) ∧
    (∀ (config : configure) (line : List Char) (fuel it : Nat) (tok : Token) (c1 c2 : Char),
      line.get? it = some '$' → line.get? (it + 1) = some c1 →
      (c1 = 'T' ∨ c1 = 't' ∨ c1 = 'D' ∨ c1 = 'd') →
      line.get? (it + 2) = some c2 → ¬ c2 = '[' →
      parseLineAux config line (fuel + 1) tok it =
        parseLineAux config line fuel
          { tok with text := ((tok.text.push '$').push c1).push c2 } (it + 3)) ∧
    (∀ (config : configure) (tok : Token),
      parseLine config tok "$q".data 0 =
        LineResult.ok { tok with text := (tok.text.push '$').push 'q' } 2) := by
  refine ⟨?_, ?_, ?_⟩
  · intro config line fuel it tok c h0 h1 hno
    have hlt : it < line.length := by
      by_contra hge
      rw [List.get?_eq_none.mpr (by omega)] at h0
      cases h0
    have hne : ¬ it = line.length := by omega
    have h2 : ¬ c = '[' := fun hh => hno (Or.inl hh)
    have h3 : ¬ (c = 'T' ∨ c = 't' ∨ c = 'D' ∨ c = 'd') := fun hh => hno (Or.inr hh)
    simp only [parseLineAux, hne, if_false, ite_false, h0, h1, h2, h3]
    rfl
  · intro config line fuel it tok c1 c2 h0 h1 hl h2 hnb
    have hlt : it < line.length := by
      by_contra hge
      rw [List.get?_eq_none.mpr (by omega)] at h0
      cases h0
    have hne : ¬ it = line.length := by omega
    have hnc1 : ¬ c1 = '[' := by
      rcases hl with h | h | h | h <;> subst h <;> decide
    simp only [parseLineAux, hne, if_false, ite_false, h0, h1, h2, hnc1, hl,
      if_true, ite_true, hnb]
  · intro config tok
    rfl

/-- Witness for C8: one literal-passthrough step on the concrete line
`"$q"` (and a `$T`-without-bracket step on `"$Tz"`), plus the full scan of
`"$q"` from a fresh token ending with text `"$q"`, empty id and link. -/
theorem C8_literal_passthrough_witness :
    parseLineAux cfg "$q".data 9 tok0 0 =
      parseLineAux cfg "$q".data 8 { text := "$q" } 2 ∧
    parseLineAux cfg "$Tz".data 9 tok0 0 =
      parseLineAux cfg "$Tz".data 8 { text := "$Tz" } 3 ∧
    parseLine cfg tok0 "$q".data 0 = LineResult.ok { text := "$q" } 2 :=
  ⟨C8_literal_passthrough.1 cfg "$q".data 8 0 tok0 'q' rfl rfl (by decide),
   C8_literal_passthrough.2.1 cfg "$Tz".data 8 0 tok0 'T' 'z' rfl rfl
     (by decide) rfl (by decide),
   C8_literal_passthrough.2.2 cfg tok0⟩

end textengine
